import Mathlib

/-!
Verification development for the zerogc simple collector
(libs/simple/src/lib.rs).  The Rust source is shallowly embedded:
machine addresses are natural numbers, interior mutability becomes
explicit state passing, and panics and assertion failures become an
error monad (`Except GcAbort`).
-/

set_option linter.unusedVariables false

namespace ZeroGc

/-! ## Layout arithmetic

Rust layout facts used by `StaticGcType::VALUE_OFFSET`
(libs/simple/src/lib.rs lines 553-581) and by `alloc_big`
(`std::mem::size_of::<BigGcObject<T>>()`, line 289), for a 64-bit
target:

* `GcHeader` is `repr(C) { type_info: &'static GcType, state: MarkState }`:
  a pointer (size 8, align 8) followed by one byte, rounded up to the
  alignment: size 16, align 8.
* `BigGcObject<()>` is `repr(C) { header: GcHeader, prev: BigObjectLink,
  static_value: ManuallyDrop<()> }`: 16 + 8 + 0 = 24 bytes, align 8.
-/

/-- Size in bytes of the Rust struct `GcHeader` on a 64-bit target. -/
def gcHeaderSize : Nat := 16

/-- Alignment of `GcHeader` (that of the contained pointer). -/
def gcHeaderAlign : Nat := 8

/-- Size in bytes of `BigGcObject<()>`: header (16) plus the `prev` link (8). -/
def bigGcObjectBaseSize : Nat := 24

/-- Alignment of `BigGcObject<()>`. -/
def bigGcObjectBaseAlign : Nat := 8

/-- Embedding of `Layout::padding_needed_for`: the number of padding bytes
needed after `size` bytes to reach a multiple of `align`. -/
def paddingNeededFor (size align : Nat) : Nat :=
  (align - size % align) % align

/-- Round `size` up to the next multiple of `align`. -/
def alignUp (size align : Nat) : Nat :=
  size + paddingNeededFor size align

/-- Embedding of `StaticGcType::VALUE_OFFSET`, small-object branch:
`Layout::new::<GcHeader>().size() + padding_needed_for(align_of::<T>())`. -/
def valueOffsetSmall (valueAlign : Nat) : Nat :=
  gcHeaderSize + paddingNeededFor gcHeaderSize valueAlign

/-- Embedding of `StaticGcType::VALUE_OFFSET`, big-object branch:
`Layout::new::<BigGcObject<()>>().size() + padding_needed_for(align_of::<T>())`. -/
def valueOffsetBig (valueAlign : Nat) : Nat :=
  bigGcObjectBaseSize + paddingNeededFor bigGcObjectBaseSize valueAlign

/-- Offset of the `static_value` field inside `repr(C) BigGcObject<T>`:
the first multiple of `align_of::<T>()` at or after the 24 header bytes. -/
def bigGcObjectPayloadOffset (valueAlign : Nat) : Nat :=
  alignUp bigGcObjectBaseSize valueAlign

/-- Embedding of `std::mem::size_of::<BigGcObject<T>>()` for a payload of
the given size and alignment: the payload field starts at
`bigGcObjectPayloadOffset` and the struct size is rounded up to the
struct alignment `max 8 (align_of::<T>())` (Rust sizes are always
multiples of the alignment). -/
def bigGcObjectSize (valueSize valueAlign : Nat) : Nat :=
  alignUp (bigGcObjectPayloadOffset valueAlign + valueSize)
    (max bigGcObjectBaseAlign valueAlign)

/-- Modelled from the spec: the small-object arena module
(libs/simple/src/alloc.rs, compiled under the small-object-arenas
feature) is not part of the given sources; only its feature-off stub is.
Per spec section 4.2 an object is small iff its size and alignment fit
within the largest configured small size class; we fix that bound at
256 bytes with alignment at most 8. -/
def isSmallObject (valueSize valueAlign : Nat) : Bool :=
  valueSize ≤ 256 && valueAlign ≤ 8

/-- Modelled from the spec: `small_object_size::<T>()` from the missing
arena module. Spec sections 4.1 and 4.2 require the live-byte credit of a
small allocation to balance the `total_size` debited by `sweep`
(the final accounting assertion of section 4.2), so it is the header
size plus alignment padding plus the value size. -/
def smallObjectSize (valueSize valueAlign : Nat) : Nat :=
  valueOffsetSmall valueAlign + valueSize

/-! ## Type information (`struct GcType`, lines 540-581) -/

/-- Embedding of the tri-color `enum MarkState` (lines 644-660). -/
inductive MarkState where
  | White
  | Grey
  | Black
deriving DecidableEq, Repr

/-- Embedding of `struct GcType` (lines 540-546).  `trace_func` is
represented by the per-object reference list (see `GcObj.refs`);
`needsTrace` records the compile-time constant `T::NEEDS_TRACE` used by
`MarkVisitor::visit_gc`, and `needsDrop` records whether `drop_func`
is `Some` (which `STATIC_TYPE` decides by `std::mem::needs_drop`). -/
structure GcType where
  valueSize : Nat
  valueOffset : Nat
  needsTrace : Bool
  needsDrop : Bool
deriving DecidableEq, Repr

/-- Embedding of `GcType::total_size` (lines 548-551). -/
def GcType.total_size (t : GcType) : Nat :=
  t.valueOffset + t.valueSize

/-- Embedding of `<T as StaticGcType>::STATIC_TYPE` (lines 557-581):
the descriptor built for a payload of the given size and alignment,
with `value_offset` chosen by the `is_small_object` branch. -/
def mkStaticType (small : Bool) (valueSize valueAlign : Nat)
    (needsTrace needsDrop : Bool) : GcType :=
  { valueSize := valueSize
    valueOffset :=
      if small then valueOffsetSmall valueAlign else valueOffsetBig valueAlign
    needsTrace := needsTrace
    needsDrop := needsDrop }

/-! ## Heap objects -/

/-- Embedding of `Gc<T>` (lines 57-66): the collector identity pointer
and the target object.  We identify an object by its header address. -/
structure GcPtr where
  collector_ptr : Nat
  addr : Nat
deriving DecidableEq, Repr

/-- A managed allocation: its header address, its `GcHeader`
(type info and mark state), and the managed references its payload
visits when traced (the behaviour of `type_info.trace_func`). -/
structure GcObj where
  addr : Nat
  type_info : GcType
  state : MarkState
  refs : List GcPtr
deriving DecidableEq, Repr

/-- Update the mark state of an object. -/
def GcObj.withState (o : GcObj) (s : MarkState) : GcObj :=
  { o with state := s }

/-- A small-arena slot: either on the free list or holding a live object. -/
inductive Slot where
  | free
  | obj (o : GcObj)
deriving DecidableEq, Repr

/-- Embedding of `struct SimpleAlloc` (lines 234-240): the live-byte
counter, the small arenas (flattened to one slot list), and the
singly-linked big-object list (`big_object_link`), head first. -/
structure SimpleAlloc where
  allocated_size : Nat
  smallSlots : List Slot
  bigObjects : List GcObj
deriving DecidableEq, Repr

/-- The live objects currently held in small-arena slots, in slot order. -/
def occupiedObjs (slots : List Slot) : List GcObj :=
  slots.filterMap fun s =>
    match s with
    | .free => none
    | .obj o => some o

/-- Every live object in the heap: small-arena slots then the big list. -/
def SimpleAlloc.allObjs (a : SimpleAlloc) : List GcObj :=
  occupiedObjs a.smallSlots ++ a.bigObjects

/-- Sum of `type_info.total_size()` over all live objects: the quantity
the spec says `live_bytes` always equals. -/
def SimpleAlloc.sumTotalSize (a : SimpleAlloc) : Nat :=
  (a.allObjs.map fun o => o.type_info.total_size).sum

/-- Dereference a header address: the first live object at that address. -/
def SimpleAlloc.find (a : SimpleAlloc) (addr : Nat) : Option GcObj :=
  a.allObjs.find? fun o => o.addr = addr

/-- Write through a header address: apply `f` to the object(s) at `addr`
(unique in any well-formed heap). -/
def SimpleAlloc.mapAt (a : SimpleAlloc) (addr : Nat) (f : GcObj → GcObj) :
    SimpleAlloc :=
  { a with
    smallSlots := a.smallSlots.map fun s =>
      match s with
      | .free => .free
      | .obj o => .obj (if o.addr = addr then f o else o)
    bigObjects := a.bigObjects.map fun o =>
      if o.addr = addr then f o else o }

/-! ## Panics and assertion failures

Every `panic!`, `assert_eq!` failure, and the out-of-memory-style
impossibilities of the embedding become explicit errors. -/

/-- The ways the collector can abort. `wrongCollector` is the identity
assertion of `MarkVisitor::visit_gc` (line 446), `greyAtSweep` the two
sweep panics (lines 323 and 346), `sizeMismatch` the final
`assert_eq!(expected_size, actual_size)` (line 358), `popMismatch` the
shadow-stack pop assertions (lines 510-513 and 524-527).
`danglingPointer` marks dereferencing a header address with no live
object (undefined behaviour in the source, impossible in well-formed
states), and `outOfFuel` marks exhaustion of the fuel bound given to the
grey-stack drain loop (the bound chosen always suffices). -/
inductive GcAbort where
  | wrongCollector
  | greyAtSweep
  | sizeMismatch
  | popMismatch
  | danglingPointer
  | outOfFuel
deriving DecidableEq, Repr

/-! ## Marking (`MarkVisitor`, lines 432-496, and `CollectionTask::run`) -/

/-- Embedding of `MarkVisitor::visit_gc` (lines 441-495, explicit
grey-stack build).  Asserts the collector identities match, locates the
header, and switches on the mark state: a White object with
`T::NEEDS_TRACE = false` goes directly to Black; a White object that
needs tracing goes to Grey and its header address is pushed onto the
grey stack; Grey and Black objects are left untouched. -/
def visitGc (expected_collector : Nat) (a : SimpleAlloc) (grey : List Nat)
    (gc : GcPtr) : Except GcAbort (SimpleAlloc × List Nat) :=
  if gc.collector_ptr ≠ expected_collector then .error .wrongCollector
  else
    match a.find gc.addr with
    | none => .error .danglingPointer
    | some o =>
      match o.state with
      | .White =>
        if !o.type_info.needsTrace then
          .ok (a.mapAt gc.addr (fun o => o.withState .Black), grey)
        else
          .ok (a.mapAt gc.addr (fun o => o.withState .Grey), gc.addr :: grey)
      | .Grey => .ok (a, grey)
      | .Black => .ok (a, grey)

/-- Trace a payload: visit each managed reference it contains, in order
(the behaviour of `type_info.trace_func` and of a root object's `trace`). -/
def traceRefs (expected_collector : Nat) (a : SimpleAlloc) (grey : List Nat) :
    List GcPtr → Except GcAbort (SimpleAlloc × List Nat)
  | [] => .ok (a, grey)
  | gc :: rest =>
    match visitGc expected_collector a grey gc with
    | .error e => .error e
    | .ok (a1, g1) => traceRefs expected_collector a1 g1 rest

/-- Embedding of the grey-stack drain loop of `CollectionTask::run`
(lines 409-423): pop a header address, invoke `type_info.trace_func` on
the payload, then mark the object Black.  The loop always terminates in
the source; here a fuel parameter bounds the recursion and the caller
passes a bound that always suffices. -/
def drainGrey (expected_collector : Nat) :
    Nat → SimpleAlloc → List Nat → Except GcAbort SimpleAlloc
  | 0, a, grey =>
    match grey with
    | [] => .ok a
    | _ :: _ => .error .outOfFuel
  | fuel + 1, a, grey =>
    match grey with
    | [] => .ok a
    | addr :: rest =>
      match a.find addr with
      | none => .error .danglingPointer
      | some o =>
        match traceRefs expected_collector a rest o.refs with
        | .error e => .error e
        | .ok (a1, g1) =>
          drainGrey expected_collector fuel
            (a1.mapAt addr (fun o => o.withState .Black)) g1

/-- Mark phase of `CollectionTask::run` (lines 400-408): for each root on
the (cloned) shadow stack, in order, trace it with a fresh visitor that
shares the one grey stack. -/
def markRoots (expected_collector : Nat) (a : SimpleAlloc) (grey : List Nat) :
    List (List GcPtr) → Except GcAbort (SimpleAlloc × List Nat)
  | [] => .ok (a, grey)
  | root :: rest =>
    match traceRefs expected_collector a grey root with
    | .error e => .error e
    | .ok (a1, g1) => markRoots expected_collector a1 g1 rest

/-- A count of live objects, used to size the drain fuel: each drain
iteration pops one entry, and entries are pushed only by a
White-to-Grey transition, so the pops are bounded by the initial grey
stack plus the number of live objects. -/
def SimpleAlloc.numObjs (a : SimpleAlloc) : Nat :=
  a.allObjs.length

/-! ## Sweeping (`SimpleAlloc::sweep`, lines 297-360) -/

/-- Accumulator threaded through the two sweep passes: provisional size
(`expected_size`, started at `allocated_size` and decremented per freed
object), survivor size (`actual_size`), and the addresses whose
`drop_func` was invoked, in invocation order. -/
structure SweepAcc where
  expected_size : Nat
  actual_size : Nat
  dropped : List Nat
deriving DecidableEq, Repr

/-- Small-arena sweep pass (lines 301-334): free slots are skipped; a
White object is debited from the provisional size, its `drop_func` (if
any) invoked, and its slot pushed on the free list; a Grey object is a
fatal marking bug; a Black object is credited to the survivor size and
reset to White. -/
def sweepSlots (acc : SweepAcc) :
    List Slot → Except GcAbort (List Slot × SweepAcc)
  | [] => .ok ([], acc)
  | .free :: rest =>
    match sweepSlots acc rest with
    | .error e => .error e
    | .ok (slots, acc1) => .ok (.free :: slots, acc1)
  | .obj o :: rest =>
    match o.state with
    | .White =>
      match sweepSlots
          { expected_size := acc.expected_size - o.type_info.total_size
            actual_size := acc.actual_size
            dropped := if o.type_info.needsDrop then acc.dropped ++ [o.addr]
                       else acc.dropped } rest with
      | .error e => .error e
      | .ok (slots, acc2) => .ok (.free :: slots, acc2)
    | .Grey => .error .greyAtSweep
    | .Black =>
      match sweepSlots
          { acc with actual_size := acc.actual_size + o.type_info.total_size }
          rest with
      | .error e => .error e
      | .ok (slots, acc2) => .ok (.obj (o.withState .White) :: slots, acc2)

/-- Big-object sweep pass (lines 336-357): walk the linked list from the
head, popping each node.  A White node is debited and its box dropped
(which invokes `drop_func` when present, per `impl Drop for BigGcObject`,
lines 631-639); Grey is fatal; a Black node is credited, relinked as the
new head of the surviving list (so survivors end up in reverse walk
order) and reset to White. -/
def sweepBig (lastLinked : List GcObj) (acc : SweepAcc) :
    List GcObj → Except GcAbort (List GcObj × SweepAcc)
  | [] => .ok (lastLinked, acc)
  | o :: rest =>
    match o.state with
    | .White =>
      let acc1 : SweepAcc :=
        { expected_size := acc.expected_size - o.type_info.total_size
          actual_size := acc.actual_size
          dropped := if o.type_info.needsDrop then acc.dropped ++ [o.addr]
                     else acc.dropped }
      sweepBig lastLinked acc1 rest
    | .Grey => .error .greyAtSweep
    | .Black =>
      let acc1 : SweepAcc :=
        { acc with actual_size := acc.actual_size + o.type_info.total_size }
      sweepBig (o.withState .White :: lastLinked) acc1 rest

/-- Embedding of `SimpleAlloc::sweep` (lines 297-360): run both passes,
assert the decremented provisional size equals the survivor size, and
store the survivor size back as the new `allocated_size`.  Also returns
the list of addresses whose destructor thunk ran. -/
def SimpleAlloc.sweep (a : SimpleAlloc) :
    Except GcAbort (SimpleAlloc × List Nat) :=
  match sweepSlots
      { expected_size := a.allocated_size, actual_size := 0, dropped := [] }
      a.smallSlots with
  | .error e => .error e
  | .ok (slots, acc1) =>
    match sweepBig [] acc1 a.bigObjects with
    | .error e => .error e
    | .ok (bigs, acc2) =>
      if acc2.expected_size ≠ acc2.actual_size then .error .sizeMismatch
      else
        .ok ({ allocated_size := acc2.actual_size
               smallSlots := slots
               bigObjects := bigs }, acc2.dropped)

/-! ## Collector state (`RawSimpleCollector`, `GcHeap`) and safepoints -/

/-- Embedding of `INITIAL_COLLECTION_THRESHOLD` (line 219). -/
def INITIAL_COLLECTION_THRESHOLD : Nat := 2048

/-- Embedding of `struct GcHeap` (lines 221-224). -/
structure GcHeap where
  threshold : Nat
  allocator : SimpleAlloc
deriving DecidableEq, Repr

/-- Embedding of `GcHeap::should_collect` (lines 226-229):
`allocated_size() >= threshold`. -/
def GcHeap.should_collect (h : GcHeap) : Bool :=
  h.allocator.allocated_size ≥ h.threshold

/-- A root held across a safepoint: the managed references its `trace`
visits, in order.  A root value doubles as the shadow-stack token the
push returns (the source token is the erased root pointer itself). -/
def Root := List GcPtr
deriving instance DecidableEq, Repr for Root

/-- Embedding of `struct RawSimpleCollector` (lines 363-367) plus the
collector identity (`SimpleAlloc::collector_ptr` in the source) and a
bump counter supplying fresh header addresses. -/
structure RawState where
  collector_ptr : Nat
  shadow_stack : List Root
  heap : GcHeap
  nextAddr : Nat
deriving DecidableEq, Repr

/-- State of `SimpleCollector::create` (lines 162-177): empty shadow
stack, empty heap, threshold at the initial constant. -/
def initState (collector_ptr : Nat) : RawState :=
  { collector_ptr := collector_ptr
    shadow_stack := []
    heap :=
      { threshold := INITIAL_COLLECTION_THRESHOLD
        allocator := { allocated_size := 0, smallSlots := [], bigObjects := [] } }
    nextAddr := 0 }

/-- Modelled from the spec: arena slot acquisition from the missing
arena module (spec section 4.2, small path: take a slot from the free
list, bump-allocating when it is empty).  The object goes into the
first free slot, or a fresh slot at the end. -/
def arenaPlace : List Slot → GcObj → List Slot
  | [], o => [.obj o]
  | .free :: rest, o => .obj o :: rest
  | .obj p :: rest, o => .obj p :: arenaPlace rest o

/-- Embedding of `SimpleAlloc::alloc` and `SimpleAlloc::alloc_big`
(lines 254-296) for a payload of the given size and alignment.  The
small path writes a White header into an arena slot and credits
`small_object_size::<T>()`; the big path boxes the object, links it at
the head of the big-object list, and credits
`std::mem::size_of::<BigGcObject<T>>()`.  Returns the new state and the
`Gc` pointer handed to the mutator. -/
def allocObj (s : RawState) (valueSize valueAlign : Nat)
    (needsTrace needsDrop : Bool) (refs : List GcPtr) : RawState × GcPtr :=
  let small := isSmallObject valueSize valueAlign
  let o : GcObj :=
    { addr := s.nextAddr
      type_info := mkStaticType small valueSize valueAlign needsTrace needsDrop
      state := .White
      refs := refs }
  let a := s.heap.allocator
  let a1 : SimpleAlloc :=
    if small then
      { a with
        smallSlots := arenaPlace a.smallSlots o
        allocated_size := a.allocated_size + smallObjectSize valueSize valueAlign }
    else
      { a with
        bigObjects := o :: a.bigObjects
        allocated_size := a.allocated_size + bigGcObjectSize valueSize valueAlign }
  ({ s with
      heap := { s.heap with allocator := a1 }
      nextAddr := s.nextAddr + 1 },
   { collector_ptr := s.collector_ptr, addr := o.addr })

/-- Embedding of `RawSimpleCollector::perform_collection` and
`CollectionTask::run` (lines 375-429): clone the shadow stack as the
root set, mark from every root, drain the grey stack, sweep, then set
the threshold to `updated_size + updated_size / 2` (150 percent of the
surviving size, in integer arithmetic). -/
def performCollection (s : RawState) : Except GcAbort RawState :=
  match markRoots s.collector_ptr s.heap.allocator [] s.shadow_stack with
  | .error e => .error e
  | .ok (a1, grey) =>
    match drainGrey s.collector_ptr (a1.numObjs + grey.length + 1) a1 grey with
    | .error e => .error e
    | .ok a2 =>
      match a2.sweep with
      | .error e => .error e
      | .ok (a3, _dropped) =>
        .ok { s with
              heap := { threshold := a3.allocated_size + a3.allocated_size / 2
                        allocator := a3 } }

/-- Embedding of `SimpleCollectorContext::basic_safepoint` (lines
507-514): push the root (the returned token is the root pointer), run
`maybe_collect` (which collects exactly when `should_collect` holds,
lines 369-374), then pop and assert the popped token is the pushed one.
The returned flag records whether a collection ran. -/
def basicSafepoint (s : RawState) (root : Root) :
    Except GcAbort (RawState × Bool) :=
  let dyn_ptr := root
  let s1 : RawState := { s with shadow_stack := s.shadow_stack ++ [root] }
  let collected := s1.heap.should_collect
  match (if collected then performCollection s1 else .ok s1 :
      Except GcAbort RawState) with
  | .error e => .error e
  | .ok s2 =>
    if s2.shadow_stack.getLast? = some dyn_ptr then
      .ok ({ s2 with shadow_stack := s2.shadow_stack.dropLast }, collected)
    else .error .popMismatch

/-! ## Mutator programs

A finite sequence of mutator operations against one collector: the
quantification domain of the spec sentence "for every finite sequence of
alloc and safepoint operations on a fresh collector". -/

/-- A mutator operation: an allocation (with the payload size, alignment,
trace and drop behaviour, and the references the payload holds), a
basic safepoint with a given root, or a nested context
(`recurse_context`) running a sub-program. -/
inductive MutOp where
  | opAlloc (valueSize valueAlign : Nat) (needsTrace needsDrop : Bool)
      (refs : List GcPtr)
  | opSafepoint (root : Root)
  | opRecurse (root : Root) (body : List MutOp)

mutual

/-- Run one mutator operation.  `opRecurse` embeds
`SimpleCollectorContext::recurse_context` (lines 516-529): push the
root, run the body in a nested context sharing the collector, then pop
and assert the popped token equals the pushed one (no implicit
collection). -/
def execOp (s : RawState) : MutOp → Except GcAbort RawState
  | .opAlloc valueSize valueAlign needsTrace needsDrop refs =>
    .ok (allocObj s valueSize valueAlign needsTrace needsDrop refs).1
  | .opSafepoint root =>
    match basicSafepoint s root with
    | .error e => .error e
    | .ok (s1, _) => .ok s1
  | .opRecurse root body =>
    match execOps { s with shadow_stack := s.shadow_stack ++ [root] } body with
    | .error e => .error e
    | .ok s2 =>
      if s2.shadow_stack.getLast? = some root then
        .ok { s2 with shadow_stack := s2.shadow_stack.dropLast }
      else .error .popMismatch

/-- Run a sequence of mutator operations. -/
def execOps (s : RawState) : List MutOp → Except GcAbort RawState
  | [] => .ok s
  | op :: rest =>
    match execOp s op with
    | .error e => .error e
    | .ok s1 => execOps s1 rest

end

/-! ## Header and payload address arithmetic (`GcHeader`, lines 597-611) -/

/-- Embedding of `GcHeader::value` (lines 598-606): the payload address
is the header address plus the `value_offset` recorded in the type
info. -/
def gcHeaderValue (t : GcType) (headerAddr : Nat) : Nat :=
  headerAddr + t.valueOffset

/-- Embedding of `GcHeader::from_value_ptr` (lines 607-610): the header
address is the payload address minus the recorded `value_offset`. -/
def gcHeaderFromValuePtr (t : GcType) (valuePtr : Nat) : Nat :=
  valuePtr - t.valueOffset

/-! ## Derived observations used by the theorems -/

/-- The sweep reclaims this object and runs its drop thunk: it is White
at sweep time and its type info carries a `drop_func`. -/
def isReclaimedDrop (o : GcObj) : Bool :=
  o.state == MarkState.White && o.type_info.needsDrop

/-- Addresses whose drop thunk a sweep of these objects runs, in order. -/
def reclaimedDropAddrs (objs : List GcObj) : List Nat :=
  (objs.filter isReclaimedDrop).map GcObj.addr

/-- The object is Black at sweep time, hence survives the sweep. -/
def isBlack (o : GcObj) : Bool :=
  o.state == MarkState.Black

/-- The objects a sweep of these objects retains: the Black ones, reset
to White, in order. -/
def survivorsOf (objs : List GcObj) : List GcObj :=
  (objs.filter isBlack).map fun o => o.withState .White

/-! ## Concrete runs and witness data -/

/-- Run a mutator program on a fresh collector (identity 0). -/
def runFresh (ops : List MutOp) : Except GcAbort RawState :=
  execOps (initState 0) ops

/-- The collection threshold after a program run, when the run completes. -/
def thresholdAfterRun (ops : List MutOp) : Option Nat :=
  match runFresh ops with
  | .ok r => some r.heap.threshold
  | .error _ => none

/-- The live-byte counter after a program run, when the run completes. -/
def allocatedAfterRun (ops : List MutOp) : Option Nat :=
  match runFresh ops with
  | .ok r => some r.heap.allocator.allocated_size
  | .error _ => none

/-- The sum of `total_size` over live objects after a program run. -/
def sumAfterRun (ops : List MutOp) : Option Nat :=
  match runFresh ops with
  | .ok r => some r.heap.allocator.sumTotalSize
  | .error _ => none

/-- Eight big 264-byte allocations (8 × 288 = 2304 live bytes, crossing
the 2048-byte threshold) followed by a safepoint whose root keeps only
the first object alive: 288 bytes survive the triggered collection. -/
def progBigSurvivor : List MutOp :=
  List.replicate 8 (MutOp.opAlloc 264 8 false false []) ++
    [MutOp.opSafepoint [{ collector_ptr := 0, addr := 0 }]]

/-- One large-object allocation of size 5001, alignment 1 (the layout of
`[u8; 5001]`). -/
def progOddAlloc : List MutOp :=
  [MutOp.opAlloc 5001 1 false false []]

/-- The odd-size large allocation followed by a rootless safepoint,
which triggers a collection. -/
def progOddCollect : List MutOp :=
  progOddAlloc ++ [MutOp.opSafepoint []]

/-- A nested context containing one safepoint: witness program for the
shadow-stack discipline. -/
def progNested : List MutOp :=
  [MutOp.opRecurse [] [MutOp.opSafepoint []]]

/-- Type info of a big 8-byte payload with no interior references and no
destructor (the shape of a `u64` on the large-object path). -/
def tBig8 : GcType := mkStaticType false 8 8 false false

/-- Type info of a big 8-byte payload with a destructor. -/
def tBig8Drop : GcType := mkStaticType false 8 8 false true

/-- Type info of a big 8-byte payload that needs tracing. -/
def tBig8Trace : GcType := mkStaticType false 8 8 true false

/-- A Black big object used by sweep witnesses. -/
def objBlackBig : GcObj :=
  { addr := 5, type_info := tBig8, state := .Black, refs := [] }

/-- A White big object with a destructor, reclaimed by sweep witnesses. -/
def objWhiteDrop : GcObj :=
  { addr := 7, type_info := tBig8Drop, state := .White, refs := [] }

/-- A White, non-tracing big object used by the visitor witnesses. -/
def objWhiteNT : GcObj :=
  { addr := 3, type_info := tBig8, state := .White, refs := [] }

/-- One-Black-object heap: its sweep succeeds and retains the object. -/
def allocOneBlack : SimpleAlloc :=
  { allocated_size := 32, smallSlots := [], bigObjects := [objBlackBig] }

/-- Heap with one reclaimable dropping object and one Black survivor. -/
def allocDropAndBlack : SimpleAlloc :=
  { allocated_size := 64, smallSlots := [],
    bigObjects := [objWhiteDrop, objBlackBig] }

/-- One-White-object heap examined by the visitor witnesses. -/
def allocOneWhite : SimpleAlloc :=
  { allocated_size := 32, smallSlots := [], bigObjects := [objWhiteNT] }

/-- The fresh collector state after one rootless collection: everything
is free and the threshold is recomputed to 0 + 0 / 2 = 0. -/
def collectedInit : RawState :=
  { collector_ptr := 0
    shadow_stack := []
    heap := { threshold := 0
              allocator := { allocated_size := 0, smallSlots := [],
                             bigObjects := [] } }
    nextAddr := 0 }

@[simp] theorem occupiedObjs_nil : occupiedObjs [] = [] := rfl

@[simp] theorem occupiedObjs_free_cons (rest : List Slot) :
    occupiedObjs (.free :: rest) = occupiedObjs rest := rfl

@[simp] theorem occupiedObjs_obj_cons (o : GcObj) (rest : List Slot) :
    occupiedObjs (.obj o :: rest) = o :: occupiedObjs rest := rfl

@[simp] theorem survivorsOf_nil : survivorsOf [] = [] := rfl

theorem survivorsOf_cons (o : GcObj) (rest : List GcObj) :
    survivorsOf (o :: rest) =
      if isBlack o then o.withState .White :: survivorsOf rest
      else survivorsOf rest := by
  simp only [survivorsOf, List.filter_cons]
  split <;> simp

@[simp] theorem reclaimedDropAddrs_nil : reclaimedDropAddrs [] = [] := rfl

theorem reclaimedDropAddrs_cons (o : GcObj) (rest : List GcObj) :
    reclaimedDropAddrs (o :: rest) =
      if isReclaimedDrop o then o.addr :: reclaimedDropAddrs rest
      else reclaimedDropAddrs rest := by
  simp only [reclaimedDropAddrs, List.filter_cons]
  split <;> simp

theorem survivorsOf_append (l₁ l₂ : List GcObj) :
    survivorsOf (l₁ ++ l₂) = survivorsOf l₁ ++ survivorsOf l₂ := by
  simp [survivorsOf, List.filter_append]

theorem reclaimedDropAddrs_append (l₁ l₂ : List GcObj) :
    reclaimedDropAddrs (l₁ ++ l₂) =
      reclaimedDropAddrs l₁ ++ reclaimedDropAddrs l₂ := by
  simp [reclaimedDropAddrs, List.filter_append]

theorem mem_survivorsOf {o : GcObj} {objs : List GcObj}
    (h : o ∈ survivorsOf objs) :
    ∃ b ∈ objs, b.state = .Black ∧ o = b.withState .White := by
  simp only [survivorsOf, List.mem_map, List.mem_filter] at h
  obtain ⟨b, ⟨hb, hblack⟩, rfl⟩ := h
  exact ⟨b, hb, by simpa [isBlack] using hblack, rfl⟩

theorem state_of_mem_survivorsOf {o : GcObj} {objs : List GcObj}
    (h : o ∈ survivorsOf objs) : o.state = .White := by
  obtain ⟨b, -, -, rfl⟩ := mem_survivorsOf h
  rfl

theorem mem_reclaimedDropAddrs {n : Nat} {objs : List GcObj}
    (h : n ∈ reclaimedDropAddrs objs) :
    ∃ w ∈ objs, w.state = .White ∧ w.type_info.needsDrop = true ∧
      w.addr = n := by
  simp only [reclaimedDropAddrs, List.mem_map, List.mem_filter] at h
  obtain ⟨w, ⟨hw, hp⟩, rfl⟩ := h
  have hp2 : w.state = MarkState.White ∧ w.type_info.needsDrop = true := by
    simpa [isReclaimedDrop] using hp
  exact ⟨w, hw, hp2.1, hp2.2, rfl⟩

theorem sweepSlots_spec (slots : List Slot) :
    ∀ (acc : SweepAcc) {slots2 : List Slot} {acc2 : SweepAcc},
      sweepSlots acc slots = .ok (slots2, acc2) →
      occupiedObjs slots2 = survivorsOf (occupiedObjs slots) ∧
      acc2.dropped = acc.dropped ++ reclaimedDropAddrs (occupiedObjs slots) := by
  induction slots with
  | nil =>
    intro acc slots2 acc2 h
    simp only [sweepSlots, Except.ok.injEq, Prod.mk.injEq] at h
    obtain ⟨rfl, rfl⟩ := h
    simp
  | cons s rest ih =>
    intro acc slots2 acc2 h
    cases s with
    | free =>
      cases hrec : sweepSlots acc rest with
      | error e =>
        simp only [sweepSlots, hrec] at h
        exact Except.noConfusion h
      | ok p =>
        obtain ⟨slots1, acc1⟩ := p
        simp only [sweepSlots, hrec, Except.ok.injEq, Prod.mk.injEq] at h
        obtain ⟨rfl, rfl⟩ := h
        obtain ⟨h1, h2⟩ := ih acc hrec
        simp [h1, h2]
    | obj o =>
      obtain ⟨addr, ti, st, refs⟩ := o
      cases st with
      | White =>
        cases hrec : sweepSlots
            { expected_size :=
                acc.expected_size - GcType.total_size ti
              actual_size := acc.actual_size
              dropped := if ti.needsDrop then acc.dropped ++ [addr]
                         else acc.dropped } rest with
        | error e =>
          simp only [sweepSlots, hrec] at h
          exact Except.noConfusion h
        | ok p =>
          obtain ⟨slots1, acc1⟩ := p
          simp only [sweepSlots, hrec, Except.ok.injEq, Prod.mk.injEq] at h
          obtain ⟨rfl, rfl⟩ := h
          obtain ⟨h1, h2⟩ := ih _ hrec
          constructor
          · simpa [survivorsOf_cons, isBlack] using h1
          · rw [h2]
            simp only [occupiedObjs_obj_cons, reclaimedDropAddrs_cons,
              isReclaimedDrop]
            cases hnd : ti.needsDrop <;> simp [hnd, List.append_assoc]
      | Grey =>
        simp only [sweepSlots] at h
        exact Except.noConfusion h
      | Black =>
        cases hrec : sweepSlots
            { acc with actual_size :=
                acc.actual_size + GcType.total_size ti } rest with
        | error e =>
          simp only [sweepSlots, hrec] at h
          exact Except.noConfusion h
        | ok p =>
          obtain ⟨slots1, acc1⟩ := p
          simp only [sweepSlots, hrec, Except.ok.injEq, Prod.mk.injEq] at h
          obtain ⟨rfl, rfl⟩ := h
          obtain ⟨h1, h2⟩ := ih _ hrec
          constructor
          · simp [survivorsOf_cons, isBlack, GcObj.withState, h1]
          · rw [h2]
            simp [reclaimedDropAddrs_cons, isReclaimedDrop]

theorem sweepBig_spec (objs : List GcObj) :
    ∀ (lastLinked : List GcObj) (acc : SweepAcc) {objs2 : List GcObj}
      {acc2 : SweepAcc},
      sweepBig lastLinked acc objs = .ok (objs2, acc2) →
      objs2 = (survivorsOf objs).reverse ++ lastLinked ∧
      acc2.dropped = acc.dropped ++ reclaimedDropAddrs objs := by
  induction objs with
  | nil =>
    intro lastLinked acc objs2 acc2 h
    simp only [sweepBig, Except.ok.injEq, Prod.mk.injEq] at h
    obtain ⟨rfl, rfl⟩ := h
    simp
  | cons o rest ih =>
    intro lastLinked acc objs2 acc2 h
    obtain ⟨addr, ti, st, refs⟩ := o
    cases st with
    | White =>
      simp only [sweepBig] at h
      obtain ⟨h1, h2⟩ := ih _ _ h
      constructor
      · simpa [survivorsOf_cons, isBlack] using h1
      · rw [h2]
        simp only [reclaimedDropAddrs_cons, isReclaimedDrop]
        cases hnd : ti.needsDrop <;> simp [hnd, List.append_assoc]
    | Grey =>
      simp only [sweepBig] at h
      exact Except.noConfusion h
    | Black =>
      simp only [sweepBig] at h
      obtain ⟨h1, h2⟩ := ih _ _ h
      constructor
      · rw [h1]
        simp [survivorsOf_cons, isBlack, GcObj.withState]
      · rw [h2]
        simp [reclaimedDropAddrs_cons, isReclaimedDrop]

/-- Combined characterisation of a completed sweep: the surviving
objects are exactly the Black ones reset to White (small-arena slots in
place, the big list rebuilt in reverse), and the drop thunks run are
exactly those of the reclaimed White objects carrying a `drop_func`,
small arenas first. -/
theorem sweep_spec {a a2 : SimpleAlloc} {dropped : List Nat}
    (h : a.sweep = .ok (a2, dropped)) :
    a2.allObjs =
      survivorsOf (occupiedObjs a.smallSlots) ++
        (survivorsOf a.bigObjects).reverse ∧
    dropped = reclaimedDropAddrs a.allObjs := by
  cases h1 : sweepSlots
      { expected_size := a.allocated_size, actual_size := 0, dropped := [] }
      a.smallSlots with
  | error e =>
    simp only [SimpleAlloc.sweep, h1] at h
    exact Except.noConfusion h
  | ok p1 =>
    obtain ⟨slots, acc1⟩ := p1
    cases h2 : sweepBig [] acc1 a.bigObjects with
    | error e =>
      simp only [SimpleAlloc.sweep, h1, h2] at h
      exact Except.noConfusion h
    | ok p2 =>
      obtain ⟨bigs, acc2⟩ := p2
      simp only [SimpleAlloc.sweep, h1, h2] at h
      by_cases hsz : acc2.expected_size ≠ acc2.actual_size
      · simp [hsz] at h
      · simp only [hsz, if_false, Except.ok.injEq, Prod.mk.injEq] at h
        obtain ⟨rfl, rfl⟩ := h
        obtain ⟨hs1, hs2⟩ := sweepSlots_spec _ _ h1
        obtain ⟨hb1, hb2⟩ := sweepBig_spec _ _ _ h2
        constructor
        · simp [SimpleAlloc.allObjs, hs1, hb1]
        · rw [hb2, hs2]
          simp [SimpleAlloc.allObjs, reclaimedDropAddrs_append]

theorem reclaimedDropAddrs_sublist (objs : List GcObj) :
    List.Sublist (reclaimedDropAddrs objs) (objs.map GcObj.addr) :=
  List.Sublist.map GcObj.addr (List.filter_sublist objs)

theorem survivor_not_dropped {objs : List GcObj}
    (hnd : (objs.map GcObj.addr).Nodup) {o : GcObj}
    (ho : o ∈ survivorsOf objs) : o.addr ∉ reclaimedDropAddrs objs := by
  intro hmem
  obtain ⟨b, hb, hbstate, rfl⟩ := mem_survivorsOf ho
  obtain ⟨w, hw, hwstate, hwdrop, haddr⟩ := mem_reclaimedDropAddrs hmem
  have haddr2 : w.addr = b.addr := by simpa [GcObj.withState] using haddr
  have hwb : w = b := List.inj_on_of_nodup_map hnd hw hb haddr2
  rw [hwb, hbstate] at hwstate
  exact MarkState.noConfusion hwstate

/-- A completed collection leaves the shadow stack, the collector
identity and the address counter untouched, and sets the threshold to
150 percent (integer arithmetic) of the surviving byte count. -/
theorem performCollection_ok {s r : RawState}
    (h : performCollection s = .ok r) :
    r.shadow_stack = s.shadow_stack ∧
    r.collector_ptr = s.collector_ptr ∧
    r.nextAddr = s.nextAddr ∧
    r.heap.threshold =
      r.heap.allocator.allocated_size +
        r.heap.allocator.allocated_size / 2 := by
  cases h1 : markRoots s.collector_ptr s.heap.allocator [] s.shadow_stack with
  | error e =>
    simp only [performCollection, h1] at h
    exact Except.noConfusion h
  | ok p1 =>
    obtain ⟨a1, grey⟩ := p1
    cases h2 : drainGrey s.collector_ptr (a1.numObjs + grey.length + 1)
        a1 grey with
    | error e =>
      simp only [performCollection, h1, h2] at h
      exact Except.noConfusion h
    | ok a2 =>
      cases h3 : a2.sweep with
      | error e =>
        simp only [performCollection, h1, h2, h3] at h
        exact Except.noConfusion h
      | ok p3 =>
        obtain ⟨a3, dropped⟩ := p3
        simp only [performCollection, h1, h2, h3, Except.ok.injEq] at h
        subst h
        exact ⟨rfl, rfl, rfl, rfl⟩

theorem visitGc_no_pop (ec : Nat) (a : SimpleAlloc) (grey : List Nat)
    (gc : GcPtr) : visitGc ec a grey gc ≠ .error .popMismatch := by
  unfold visitGc
  split
  · simp
  · split
    · simp
    · split
      · split <;> simp
      · simp
      · simp

theorem traceRefs_no_pop (ec : Nat) :
    ∀ (refs : List GcPtr) (a : SimpleAlloc) (grey : List Nat),
      traceRefs ec a grey refs ≠ .error .popMismatch := by
  intro refs
  induction refs with
  | nil => intro a grey h; simp [traceRefs] at h
  | cons gc rest ih =>
    intro a grey h
    cases hv : visitGc ec a grey gc with
    | error e =>
      simp only [traceRefs, hv] at h
      exact visitGc_no_pop ec a grey gc (hv.trans h)
    | ok p =>
      obtain ⟨a1, g1⟩ := p
      simp only [traceRefs, hv] at h
      exact ih a1 g1 h

theorem drainGrey_no_pop (ec : Nat) :
    ∀ (fuel : Nat) (a : SimpleAlloc) (grey : List Nat),
      drainGrey ec fuel a grey ≠ .error .popMismatch := by
  intro fuel
  induction fuel with
  | zero =>
    intro a grey h
    cases grey <;> simp [drainGrey] at h
  | succ fuel ih =>
    intro a grey h
    cases grey with
    | nil => simp [drainGrey] at h
    | cons addr rest =>
      cases hf : a.find addr with
      | none => simp [drainGrey, hf] at h
      | some o =>
        cases ht : traceRefs ec a rest o.refs with
        | error e =>
          simp only [drainGrey, hf, ht] at h
          have he : e = GcAbort.popMismatch := by simpa using h
          rw [he] at ht
          exact traceRefs_no_pop ec o.refs a rest ht
        | ok p =>
          obtain ⟨a1, g1⟩ := p
          simp only [drainGrey, hf, ht] at h
          exact ih _ _ h

theorem markRoots_no_pop (ec : Nat) :
    ∀ (roots : List Root) (a : SimpleAlloc) (grey : List Nat),
      markRoots ec a grey roots ≠ .error .popMismatch := by
  intro roots
  induction roots with
  | nil => intro a grey h; simp [markRoots] at h
  | cons root rest ih =>
    intro a grey h
    cases ht : traceRefs ec a grey root with
    | error e =>
      simp only [markRoots, ht] at h
      exact traceRefs_no_pop ec root a grey (ht.trans h)
    | ok p =>
      obtain ⟨a1, g1⟩ := p
      simp only [markRoots, ht] at h
      exact ih a1 g1 h

theorem sweepSlots_no_pop :
    ∀ (slots : List Slot) (acc : SweepAcc),
      sweepSlots acc slots ≠ .error .popMismatch := by
  intro slots
  induction slots with
  | nil => intro acc h; simp [sweepSlots] at h
  | cons s rest ih =>
    intro acc h
    cases s with
    | free =>
      cases hrec : sweepSlots acc rest with
      | error e =>
        simp only [sweepSlots, hrec] at h
        exact ih acc (hrec.trans h)
      | ok p => obtain ⟨x, y⟩ := p; simp [sweepSlots, hrec] at h
    | obj o =>
      obtain ⟨addr, ti, st, refs⟩ := o
      cases st with
      | White =>
        cases hrec : sweepSlots
            { expected_size := acc.expected_size - GcType.total_size ti
              actual_size := acc.actual_size
              dropped := if ti.needsDrop then acc.dropped ++ [addr]
                         else acc.dropped } rest with
        | error e =>
          simp only [sweepSlots, hrec] at h
          exact ih _ (hrec.trans h)
        | ok p => obtain ⟨x, y⟩ := p; simp [sweepSlots, hrec] at h
      | Grey => simp [sweepSlots] at h
      | Black =>
        cases hrec : sweepSlots
            { acc with actual_size := acc.actual_size + GcType.total_size ti }
            rest with
        | error e =>
          simp only [sweepSlots, hrec] at h
          exact ih _ (hrec.trans h)
        | ok p => obtain ⟨x, y⟩ := p; simp [sweepSlots, hrec] at h

theorem sweepBig_no_pop :
    ∀ (objs : List GcObj) (lastLinked : List GcObj) (acc : SweepAcc),
      sweepBig lastLinked acc objs ≠ .error .popMismatch := by
  intro objs
  induction objs with
  | nil => intro lastLinked acc h; simp [sweepBig] at h
  | cons o rest ih =>
    intro lastLinked acc h
    obtain ⟨addr, ti, st, refs⟩ := o
    cases st with
    | White => simp only [sweepBig] at h; exact ih _ _ h
    | Grey => simp [sweepBig] at h
    | Black => simp only [sweepBig] at h; exact ih _ _ h

theorem sweep_no_pop (a : SimpleAlloc) :
    a.sweep ≠ .error .popMismatch := by
  intro h
  cases h1 : sweepSlots
      { expected_size := a.allocated_size, actual_size := 0, dropped := [] }
      a.smallSlots with
  | error e =>
    simp only [SimpleAlloc.sweep, h1] at h
    have he : e = GcAbort.popMismatch := by simpa using h
    rw [he] at h1
    exact sweepSlots_no_pop _ _ h1
  | ok p1 =>
    obtain ⟨slots, acc1⟩ := p1
    cases h2 : sweepBig [] acc1 a.bigObjects with
    | error e =>
      simp only [SimpleAlloc.sweep, h1, h2] at h
      have he : e = GcAbort.popMismatch := by simpa using h
      rw [he] at h2
      exact sweepBig_no_pop _ _ _ h2
    | ok p2 =>
      obtain ⟨bigs, acc2⟩ := p2
      simp only [SimpleAlloc.sweep, h1, h2] at h
      by_cases hsz : acc2.expected_size ≠ acc2.actual_size <;>
        simp [hsz] at h

theorem performCollection_no_pop (s : RawState) :
    performCollection s ≠ .error .popMismatch := by
  intro h
  cases h1 : markRoots s.collector_ptr s.heap.allocator [] s.shadow_stack with
  | error e =>
    simp only [performCollection, h1] at h
    have he : e = GcAbort.popMismatch := by simpa using h
    rw [he] at h1
    exact markRoots_no_pop _ _ _ _ h1
  | ok p1 =>
    obtain ⟨a1, grey⟩ := p1
    cases h2 : drainGrey s.collector_ptr (a1.numObjs + grey.length + 1)
        a1 grey with
    | error e =>
      simp only [performCollection, h1, h2] at h
      have he : e = GcAbort.popMismatch := by simpa using h
      rw [he] at h2
      exact drainGrey_no_pop _ _ _ _ h2
    | ok a2 =>
      cases h3 : a2.sweep with
      | error e =>
        simp only [performCollection, h1, h2, h3] at h
        have he : e = GcAbort.popMismatch := by simpa using h
        rw [he] at h3
        exact sweep_no_pop _ h3
      | ok p3 =>
        obtain ⟨a3, dropped⟩ := p3
        simp [performCollection, h1, h2, h3] at h

theorem basicSafepoint_lt {s : RawState} (root : Root)
    (h : s.heap.allocator.allocated_size < s.heap.threshold) :
    basicSafepoint s root = .ok (s, false) := by
  have hc : ({ s with shadow_stack := s.shadow_stack ++ [root] } :
      RawState).heap.should_collect = false :=
    decide_eq_false (Nat.not_le.mpr h)
  simp [basicSafepoint, hc, List.getLast?_concat, List.dropLast_concat]

theorem basicSafepoint_ok {s : RawState} {root : Root} {r : RawState}
    {b : Bool} (h : basicSafepoint s root = .ok (r, b)) :
    (b = true ↔ s.heap.allocator.allocated_size ≥ s.heap.threshold) ∧
    r.shadow_stack = s.shadow_stack := by
  cases hc : ({ s with shadow_stack := s.shadow_stack ++ [root] } :
      RawState).heap.should_collect with
  | false =>
    simp [basicSafepoint, hc, List.getLast?_concat, List.dropLast_concat] at h
    obtain ⟨rfl, rfl⟩ := h
    have : ¬ (s.heap.allocator.allocated_size ≥ s.heap.threshold) :=
      of_decide_eq_false hc
    simp [this]
  | true =>
    cases hp : performCollection
        { s with shadow_stack := s.shadow_stack ++ [root] } with
    | error e => simp [basicSafepoint, hc, hp] at h
    | ok s2 =>
      have hst : s2.shadow_stack = s.shadow_stack ++ [root] :=
        (performCollection_ok hp).1
      simp [basicSafepoint, hc, hp, hst, List.getLast?_concat,
        List.dropLast_concat] at h
      obtain ⟨rfl, rfl⟩ := h
      have : s.heap.allocator.allocated_size ≥ s.heap.threshold :=
        of_decide_eq_true hc
      simp [this, hst, List.dropLast_concat]

theorem basicSafepoint_no_pop (s : RawState) (root : Root) :
    basicSafepoint s root ≠ .error .popMismatch := by
  intro h
  cases hc : ({ s with shadow_stack := s.shadow_stack ++ [root] } :
      RawState).heap.should_collect with
  | false =>
    simp [basicSafepoint, hc, List.getLast?_concat] at h
  | true =>
    cases hp : performCollection
        { s with shadow_stack := s.shadow_stack ++ [root] } with
    | error e =>
      simp only [basicSafepoint, hc, if_true, hp] at h
      have he : e = GcAbort.popMismatch := by simpa using h
      rw [he] at hp
      exact performCollection_no_pop _ hp
    | ok s2 =>
      have hst : s2.shadow_stack = s.shadow_stack ++ [root] :=
        (performCollection_ok hp).1
      simp [basicSafepoint, hc, hp, hst, List.getLast?_concat] at h

mutual

theorem execOp_stack_inv (s : RawState) :
    (op : MutOp) →
      execOp s op ≠ .error .popMismatch ∧
      ∀ r, execOp s op = .ok r → r.shadow_stack = s.shadow_stack
  | .opAlloc vs va nt nd refs => by
    constructor
    · intro h
      simp [execOp] at h
    · intro r h
      simp only [execOp, Except.ok.injEq] at h
      subst h
      rfl
  | .opSafepoint root => by
    constructor
    · intro h
      cases hb : basicSafepoint s root with
      | error e =>
        simp only [execOp, hb] at h
        have he : e = GcAbort.popMismatch := by simpa using h
        rw [he] at hb
        exact basicSafepoint_no_pop s root hb
      | ok p =>
        obtain ⟨s1, b⟩ := p
        simp [execOp, hb] at h
    · intro r h
      cases hb : basicSafepoint s root with
      | error e => simp [execOp, hb] at h
      | ok p =>
        obtain ⟨s1, b⟩ := p
        simp only [execOp, hb, Except.ok.injEq] at h
        subst h
        exact (basicSafepoint_ok hb).2
  | .opRecurse root body => by
    have hbody :=
      execOps_stack_inv { s with shadow_stack := s.shadow_stack ++ [root] }
        body
    constructor
    · intro h
      cases hx : execOps { s with shadow_stack := s.shadow_stack ++ [root] }
          body with
      | error e =>
        simp only [execOp, hx] at h
        have he : e = GcAbort.popMismatch := by simpa using h
        rw [he] at hx
        exact hbody.1 hx
      | ok s2 =>
        have hst : s2.shadow_stack = s.shadow_stack ++ [root] :=
          hbody.2 s2 hx
        simp [execOp, hx, hst, List.getLast?_concat] at h
    · intro r h
      cases hx : execOps { s with shadow_stack := s.shadow_stack ++ [root] }
          body with
      | error e => simp [execOp, hx] at h
      | ok s2 =>
        have hst : s2.shadow_stack = s.shadow_stack ++ [root] :=
          hbody.2 s2 hx
        simp only [execOp, hx, hst, List.getLast?_concat, if_pos,
          List.dropLast_concat, Except.ok.injEq] at h
        subst h
        rfl

theorem execOps_stack_inv (s : RawState) :
    (ops : List MutOp) →
      execOps s ops ≠ .error .popMismatch ∧
      ∀ r, execOps s ops = .ok r → r.shadow_stack = s.shadow_stack
  | [] => by
    constructor
    · intro h
      simp [execOps] at h
    · intro r h
      simp only [execOps, Except.ok.injEq] at h
      subst h
      rfl
  | op :: rest => by
    have hop := execOp_stack_inv s op
    constructor
    · intro h
      cases hx : execOp s op with
      | error e =>
        simp only [execOps, hx] at h
        have he : e = GcAbort.popMismatch := by simpa using h
        rw [he] at hx
        exact hop.1 hx
      | ok s1 =>
        simp only [execOps, hx] at h
        exact (execOps_stack_inv s1 rest).1 h
    · intro r h
      cases hx : execOp s op with
      | error e => simp [execOps, hx] at h
      | ok s1 =>
        simp only [execOps, hx] at h
        rw [(execOps_stack_inv s1 rest).2 r h, hop.2 s1 hx]

end

/-! ## Claim theorems -/

/-- C1, counterexample: on a fresh collector, eight 288-byte large
allocations followed by a safepoint that keeps exactly one object alive
trigger a collection (2304 ≥ 2048) after which the threshold is
432 = 288 + 288 / 2 — strictly below the initial 2048-byte threshold,
refuting the claim that the post-collection threshold is never below
the threshold set at collector creation. -/
theorem threshold_drops_below_initial :
    thresholdAfterRun progBigSurvivor = some 432 ∧
    allocatedAfterRun progBigSurvivor = some 288 ∧
    432 = 288 + 288 / 2 ∧
    432 < INITIAL_COLLECTION_THRESHOLD :=
  ⟨rfl, rfl, rfl, by decide⟩

/-- C1, amended: after every collection that completes, the threshold
equals `surviving_bytes + surviving_bytes / 2` in integer arithmetic
(exactly 1.5 × surviving whenever that quantity is even); there is no
lower bound tied to the initial threshold, and the threshold is 0 when
nothing survives. -/
theorem collection_threshold_formula {s r : RawState}
    (h : performCollection s = .ok r) :
    r.heap.threshold =
      r.heap.allocator.allocated_size +
        r.heap.allocator.allocated_size / 2 :=
  (performCollection_ok h).2.2.2

/-- C1 witness: the threshold formula instantiated on a fresh collector
whose rootless collection completes with nothing surviving. -/
theorem collection_threshold_formula_witness :
    collectedInit.heap.threshold =
      collectedInit.heap.allocator.allocated_size +
        collectedInit.heap.allocator.allocated_size / 2 :=
  @collection_threshold_formula (initState 0) collectedInit rfl

/-- C2, code bug: one large-object allocation of a payload with size
5001 and alignment 1 credits `size_of::<BigGcObject<T>>()` = 5032 live
bytes while the object's `total_size` is 5025, so at the following
safepoint boundary the live-byte counter differs from the sum of
`total_size` over allocated objects; the collection triggered by the
next safepoint aborts in the sweep accounting assertion
`assert_eq!(expected_size, actual_size)`. -/
theorem live_bytes_diverges_from_total_size :
    allocatedAfterRun progOddAlloc = some 5032 ∧
    sumAfterRun progOddAlloc = some 5025 ∧
    runFresh progOddCollect = .error .sizeMismatch :=
  ⟨rfl, rfl, rfl⟩

/-- C3: `basic_safepoint` pushes the given root, runs a collection
exactly when `live_bytes ≥ threshold` (the comparison is ≥, so equality
triggers a collection), then pops the root; when
`live_bytes < threshold` no collection runs and the returned state is
unchanged. -/
theorem basic_safepoint_collects_iff_threshold (s : RawState) (root : Root) :
    (s.heap.allocator.allocated_size < s.heap.threshold →
       basicSafepoint s root = .ok (s, false)) ∧
    (∀ r b, basicSafepoint s root = .ok (r, b) →
       ((b = true ↔ s.heap.allocator.allocated_size ≥ s.heap.threshold) ∧
        r.shadow_stack = s.shadow_stack)) :=
  ⟨fun h => basicSafepoint_lt root h, fun r b h => basicSafepoint_ok h⟩

/-- C3 witness: a fresh collector is below threshold, so its safepoint
returns the state unchanged without collecting. -/
theorem basic_safepoint_collects_iff_threshold_witness :
    basicSafepoint (initState 0) [] = .ok (initState 0, false) ∧
    ((false = true ↔
        (initState 0).heap.allocator.allocated_size ≥
          (initState 0).heap.threshold) ∧
     (initState 0).shadow_stack = (initState 0).shadow_stack) :=
  ⟨(basic_safepoint_collects_iff_threshold (initState 0) []).1 (by decide),
   (basic_safepoint_collects_iff_threshold (initState 0) []).2
     (initState 0) false rfl⟩

/-- C4: `visit_gc` on a matching-collector pointer whose header is
White marks the object Black directly when `T::NEEDS_TRACE` is false,
and otherwise marks it Grey and pushes the header address onto the grey
stack; Grey and Black targets are left untouched; one grey-stack drain
step pops a header, invokes the payload's trace over its references,
and then sets the popped object Black. -/
theorem visit_gc_transitions (ec : Nat) (a : SimpleAlloc) (grey : List Nat)
    (gc : GcPtr) (o : GcObj) (hc : gc.collector_ptr = ec)
    (hf : a.find gc.addr = some o) :
    (o.state = .White → o.type_info.needsTrace = false →
       visitGc ec a grey gc =
         .ok (a.mapAt gc.addr (fun x => x.withState .Black), grey)) ∧
    (o.state = .White → o.type_info.needsTrace = true →
       visitGc ec a grey gc =
         .ok (a.mapAt gc.addr (fun x => x.withState .Grey),
              gc.addr :: grey)) ∧
    (o.state = .Grey → visitGc ec a grey gc = .ok (a, grey)) ∧
    (o.state = .Black → visitGc ec a grey gc = .ok (a, grey)) ∧
    (∀ fuel rest,
       drainGrey ec (fuel + 1) a (gc.addr :: rest) =
         match traceRefs ec a rest o.refs with
         | .error e => .error e
         | .ok p =>
           drainGrey ec fuel
             (p.1.mapAt gc.addr (fun x => x.withState .Black)) p.2) := by
  refine ⟨?_, ?_, ?_, ?_, ?_⟩
  · intro hw hnt
    simp [visitGc, hc, hf, hw, hnt]
  · intro hw hnt
    simp [visitGc, hc, hf, hw, hnt]
  · intro hg
    simp [visitGc, hc, hf, hg]
  · intro hb
    simp [visitGc, hc, hf, hb]
  · intro fuel rest
    simp only [drainGrey, hf]
    cases htr : traceRefs ec a rest o.refs with
    | error e => simp [htr]
    | ok p =>
      obtain ⟨a1, g1⟩ := p
      simp [htr]

/-- C4 witness: visiting the White non-tracing object at address 3
marks it Black directly. -/
theorem visit_gc_transitions_witness :
    visitGc 0 allocOneWhite [] { collector_ptr := 0, addr := 3 } =
      .ok (allocOneWhite.mapAt 3 (fun x => x.withState .Black), []) :=
  (visit_gc_transitions 0 allocOneWhite []
      { collector_ptr := 0, addr := 3 } objWhiteNT rfl rfl).1 rfl rfl

/-- C5: when a sweep completes, every object remaining in the heap
(live small-arena slots and the rebuilt large-object list alike) has
mark state White, and in particular no Grey object exists anywhere in
the heap. -/
theorem sweep_survivors_white {a a2 : SimpleAlloc} {dropped : List Nat}
    (h : a.sweep = .ok (a2, dropped)) :
    (∀ o ∈ a2.allObjs, o.state = .White) ∧
    ∀ o ∈ a2.allObjs, o.state ≠ .Grey := by
  have hspec := (sweep_spec h).1
  have hwhite : ∀ o ∈ a2.allObjs, o.state = .White := by
    intro o ho
    rw [hspec] at ho
    rcases List.mem_append.mp ho with h1 | h2
    · exact state_of_mem_survivorsOf h1
    · exact state_of_mem_survivorsOf (List.mem_reverse.mp h2)
  refine ⟨hwhite, fun o ho => ?_⟩
  rw [hwhite o ho]
  intro hx
  exact MarkState.noConfusion hx

/-- C5 witness: sweeping the one-Black-object heap retains the object
with state White. -/
theorem sweep_survivors_white_witness :
    (objBlackBig.withState MarkState.White).state = MarkState.White :=
  (@sweep_survivors_white allocOneBlack
      { allocated_size := 32, smallSlots := [],
        bigObjects := [objBlackBig.withState .White] }
      [] rfl).1 (objBlackBig.withState .White) (by decide)

/-- C6: a completed sweep runs the destructor thunk exactly once for
each reclaimed allocation whose type info carries a `drop_func` (the
objects White at sweep time), in sweep order over both the small-arena
and large-object paths, and never for an allocation that survives the
sweep (Black at sweep time). -/
theorem sweep_drop_exactly_reclaimed {a a2 : SimpleAlloc}
    {dropped : List Nat} (h : a.sweep = .ok (a2, dropped)) :
    dropped = reclaimedDropAddrs a.allObjs ∧
    ((a.allObjs.map GcObj.addr).Nodup →
       dropped.Nodup ∧ ∀ o ∈ a2.allObjs, o.addr ∉ dropped) := by
  obtain ⟨hobjs, hdropped⟩ := sweep_spec h
  refine ⟨hdropped, fun hnd => ⟨?_, ?_⟩⟩
  · rw [hdropped]
    exact (reclaimedDropAddrs_sublist a.allObjs).nodup hnd
  · intro o ho
    have ho2 : o ∈ survivorsOf a.allObjs := by
      rw [SimpleAlloc.allObjs, survivorsOf_append]
      rw [hobjs] at ho
      rcases List.mem_append.mp ho with h1 | h2
      · exact List.mem_append.mpr (Or.inl h1)
      · exact List.mem_append.mpr (Or.inr (List.mem_reverse.mp h2))
    rw [hdropped]
    exact survivor_not_dropped hnd ho2

/-- C6 witness: sweeping a heap holding one White dropping object
(address 7) and one Black survivor (address 5) drops exactly address 7
and the survivor is not dropped. -/
theorem sweep_drop_exactly_reclaimed_witness :
    ([7] : List Nat) = reclaimedDropAddrs allocDropAndBlack.allObjs ∧
    (objBlackBig.withState MarkState.White).addr ∉ ([7] : List Nat) :=
  ⟨(@sweep_drop_exactly_reclaimed allocDropAndBlack
      { allocated_size := 32, smallSlots := [],
        bigObjects := [objBlackBig.withState .White] }
      [7] rfl).1,
   ((@sweep_drop_exactly_reclaimed allocDropAndBlack
      { allocated_size := 32, smallSlots := [],
        bigObjects := [objBlackBig.withState .White] }
      [7] rfl).2 (by decide)).2
     (objBlackBig.withState .White) (by decide)⟩

/-- C7: the mark visitor aborts with the collector-identity assertion
when handed a pointer whose collector differs from the expected one,
and when the identities match it proceeds to examine the target's
header without raising that assertion. -/
theorem visit_gc_collector_identity (ec : Nat) (a : SimpleAlloc)
    (grey : List Nat) (gc : GcPtr) :
    (gc.collector_ptr ≠ ec →
       visitGc ec a grey gc = .error .wrongCollector) ∧
    (gc.collector_ptr = ec → ∀ o, a.find gc.addr = some o →
       (visitGc ec a grey gc).isOk = true) := by
  constructor
  · intro hne
    simp [visitGc, hne]
  · intro he o hf
    cases hs : o.state <;> cases hnt : o.type_info.needsTrace <;>
      simp [visitGc, he, hf, hs, hnt, Except.isOk, Except.toBool]

/-- C7 witness: a wrong-collector pointer (identity 1 against expected
0) aborts; the matching pointer is processed normally. -/
theorem visit_gc_collector_identity_witness :
    visitGc 0 allocOneWhite [] { collector_ptr := 1, addr := 3 } =
      .error .wrongCollector ∧
    (visitGc 0 allocOneWhite []
        { collector_ptr := 0, addr := 3 }).isOk = true :=
  ⟨(visit_gc_collector_identity 0 allocOneWhite []
      { collector_ptr := 1, addr := 3 }).1 (by decide),
   (visit_gc_collector_identity 0 allocOneWhite []
      { collector_ptr := 0, addr := 3 }).2 rfl objWhiteNT rfl⟩

/-- C8: in every mutator program — any nesting of allocations, basic
safepoints and nested contexts — shadow-stack pushes and pops are
strictly balanced in LIFO order: execution can never abort with a
pop-token mismatch (each pop returns exactly the token its matching
push produced), and a completed execution restores the shadow stack to
its initial contents. -/
theorem shadow_stack_balanced (s : RawState) (ops : List MutOp) :
    execOps s ops ≠ .error .popMismatch ∧
    ∀ r, execOps s ops = .ok r → r.shadow_stack = s.shadow_stack :=
  execOps_stack_inv s ops

/-- C8 witness: a nested context containing a safepoint runs to
completion restoring the empty shadow stack. -/
theorem shadow_stack_balanced_witness :
    ¬ (execOps (initState 0) progNested = .error .popMismatch) ∧
    (initState 0).shadow_stack = (initState 0).shadow_stack :=
  ⟨(shadow_stack_balanced (initState 0) progNested).1,
   (shadow_stack_balanced (initState 0) progNested).2 (initState 0) rfl⟩

/-- C9: adding a type's recorded `value_offset` to a header address
(`GcHeader::value`) and subtracting it from the payload address
(`GcHeader::from_value_ptr`) are exact mutual inverses for every
descriptor built by `StaticGcType` on either allocation path; moreover
the payload field offset inside `BigGcObject` coincides with the
big-path `value_offset`, so payload pointers returned by `alloc_big`
satisfy `header_address + value_offset = payload`. -/
theorem header_value_roundtrip (small : Bool) (valueSize valueAlign : Nat)
    (nt nd : Bool) (headerAddr : Nat) :
    gcHeaderFromValuePtr (mkStaticType small valueSize valueAlign nt nd)
        (gcHeaderValue (mkStaticType small valueSize valueAlign nt nd)
          headerAddr) = headerAddr ∧
    gcHeaderValue (mkStaticType small valueSize valueAlign nt nd)
        (gcHeaderFromValuePtr (mkStaticType small valueSize valueAlign nt nd)
          (gcHeaderValue (mkStaticType small valueSize valueAlign nt nd)
            headerAddr)) =
      gcHeaderValue (mkStaticType small valueSize valueAlign nt nd)
        headerAddr ∧
    bigGcObjectPayloadOffset valueAlign = valueOffsetBig valueAlign := by
  refine ⟨?_, ?_, rfl⟩ <;> simp [gcHeaderFromValuePtr, gcHeaderValue]

/-- C10, code bug: on the large-object path the live-byte credit
`size_of::<BigGcObject<T>>()` does not always equal the `total_size`
(`value_offset + value_size`) debited during sweep: for a one-byte
payload (u8) the box size is 32 while `total_size` is 25, and for a
5001-byte payload they are 5032 versus 5025 — the equality the sweep
accounting depends on fails whenever the payload size is not a multiple
of the 8-byte struct alignment. -/
theorem big_object_size_vs_total_size :
    bigGcObjectSize 1 1 = 32 ∧
    (mkStaticType false 1 1 false false).total_size = 25 ∧
    bigGcObjectSize 1 1 ≠ (mkStaticType false 1 1 false false).total_size ∧
    bigGcObjectSize 5001 1 = 5032 ∧
    (mkStaticType false 5001 1 false false).total_size = 5025 :=
  ⟨rfl, rfl, by decide, rfl, rfl⟩

end ZeroGc
